import Mathlib

/-!
Verification of the incremental JSON-number parser.

The parser in the source is an asio stackless coroutine (`reenter`/`yield`).
We embed it as an explicit state machine: each `yield` suspension point of
`number_parser::operator()` becomes a constructor of `PState`, and the code
executed between suspension points becomes the character step function
`stepChar`.  Buffers of `mantissa_builder` and `exponent_builder` are
`List Char` (the contents of the `std::string` buffers).  The error slot
only ever holds `asio::error::invalid_argument` or success, so it is a
`Bool` (`true` = invalid_argument recorded).
-/

namespace JsonNum

/-- Suspension states of `number_parser::operator()`.  `start` is the fresh
coroutine (state 0); every other non-terminal constructor names the `yield`
it will resume from; `complete` is the terminal coroutine state `-1`,
reached by `yield break` or by falling off the end of the body (errors also
land here, with the error slot set). -/
inductive PState where
  | start
  | afterPlus
  | afterMinus
  | leadingZero
  | intDigits
  | fracStart
  | fracDigits
  | expStart
  | expSignMinus
  | expSignPlus
  | expDigits
  | complete
deriving DecidableEq

/-- `number_parser`: the two builders' buffers, the error slot, and the
coroutine state. -/
structure NumberParser where
  st : PState
  mantissa : List Char
  exponent : List Char
  err : Bool
deriving DecidableEq

/-- A freshly constructed `number_parser`. -/
def initNP : NumberParser := ⟨.start, [], [], false⟩

/-- `is_digit` from the source: `c >= '0' && c <= '9'`. -/
def is_digit (c : Char) : Bool := decide ('0' ≤ c ∧ c ≤ '9')

/-- `mantissa_builder::notify_negative`. -/
def mantissa_notify_negative (b : List Char) : List Char := b ++ ['-']

/-- `mantissa_builder::notify_decimal`. -/
def mantissa_notify_decimal (b : List Char) : List Char := b ++ ['.']

/-- `mantissa_builder::notify_digit`. -/
def mantissa_notify_digit (b : List Char) (c : Char) : List Char := b ++ [c]

/-- `mantissa_builder::finalise`: an empty buffer becomes "0". -/
def mantissa_finalise (b : List Char) : List Char := if b = [] then ['0'] else b

/-- `exponent_builder::notify_digit`. -/
def exponent_notify_digit (b : List Char) (c : Char) : List Char := b ++ [c]

/-- `exponent_builder::notify_negative`. -/
def exponent_notify_negative (b : List Char) : List Char := b ++ ['-']

/-- `exponent_builder::finalise`: an empty buffer becomes "0", then the
marker 'e' is unconditionally prepended. -/
def exponent_finalise (b : List Char) : List Char :=
  'e' :: (if b = [] then ['0'] else b)

/-- Code at lines 163-215 examining the character after the optional sign:
leading-zero check, integer-digit loop entry, exponent-marker jump,
decimal-point fallthrough, or end of number (`yield break`, character not
consumed).  Shared by `start` (when the first character is not a sign) and
by the resumptions after a consumed sign.  The returned Bool tells whether
the character was consumed. -/
def stepPostSign (np : NumberParser) (c : Char) : NumberParser × Bool :=
  if c = '0' then ({ np with st := .leadingZero }, true)
  else if is_digit c then
    ({ np with st := .intDigits, mantissa := mantissa_notify_digit np.mantissa c }, true)
  else if c = 'e' ∨ c = 'E' then ({ np with st := .expStart }, true)
  else if c = '.' then
    ({ np with st := .fracStart, mantissa := mantissa_notify_decimal np.mantissa }, true)
  else ({ np with st := .complete }, false)

/-- The fractional-digit loop (lines 217-233): digits are appended, an
exponent marker is consumed (never appended) jumping to the exponent, any
other character ends the number unconsumed. -/
def stepFrac (np : NumberParser) (c : Char) : NumberParser × Bool :=
  if is_digit c then
    ({ np with st := .fracDigits, mantissa := mantissa_notify_digit np.mantissa c }, true)
  else if c = 'e' ∨ c = 'E' then ({ np with st := .expStart }, true)
  else ({ np with st := .complete }, false)

/-- The exponent-digit loop (lines 270-281): digits are appended; any other
character falls off the end of the coroutine body, completing the parse
without consuming it. -/
def stepExpDigits (np : NumberParser) (c : Char) : NumberParser × Bool :=
  if is_digit c then
    ({ np with st := .expDigits, exponent := exponent_notify_digit np.exponent c }, true)
  else ({ np with st := .complete }, false)

/-- One character of `number_parser::operator()` on a non-empty chunk: from
the current suspension state, examine the character under the cursor and
either consume it (returning `true` and the successor state) or stop
without consuming it (returning `false`, with the coroutine terminated). -/
def stepChar (np : NumberParser) (c : Char) : NumberParser × Bool :=
  match np.st with
  | .start =>
      if c = '+' then ({ np with st := .afterPlus }, true)
      else if c = '-' then
        ({ np with st := .afterMinus, mantissa := mantissa_notify_negative np.mantissa }, true)
      else stepPostSign np c
  | .afterPlus => stepPostSign np c
  | .afterMinus => stepPostSign np c
  | .leadingZero =>
      if c = '.' then
        ({ np with st := .fracStart, mantissa := mantissa_notify_decimal np.mantissa }, true)
      else ({ np with st := .complete, err := true }, false)
  | .intDigits =>
      if is_digit c then
        ({ np with mantissa := mantissa_notify_digit np.mantissa c }, true)
      else if c = 'e' ∨ c = 'E' then ({ np with st := .expStart }, true)
      else if c = '.' then
        ({ np with st := .fracStart, mantissa := mantissa_notify_decimal np.mantissa }, true)
      else ({ np with st := .complete }, false)
  | .fracStart => stepFrac np c
  | .fracDigits => stepFrac np c
  | .expStart =>
      if c = '-' then
        ({ np with st := .expSignMinus, exponent := exponent_notify_negative np.exponent }, true)
      else if c = '+' then ({ np with st := .expSignPlus }, true)
      else stepExpDigits np c
  | .expSignMinus => stepExpDigits np c
  | .expSignPlus => stepExpDigits np c
  | .expDigits => stepExpDigits np c
  | .complete => (np, false)

/-- Run `operator()` over the characters of a non-empty chunk: consume until
either the chunk is exhausted (the coroutine suspends at the state recorded
by the last consuming step) or a step refuses its character (the coroutine
has terminated).  Returns the number of characters consumed, i.e. the
offset of the returned iterator from the chunk's begin. -/
def runChunk : NumberParser → List Char → NumberParser × Nat
  | np, [] => (np, 0)
  | np, c :: rest =>
      if (stepChar np c).2 then
        ((runChunk (stepChar np c).1 rest).1, (runChunk (stepChar np c).1 rest).2 + 1)
      else ((stepChar np c).1, 0)

/-- The `if (finalising())` check guarding each resumption when `operator()`
is entered with an empty range: states awaiting a mandatory character
(fresh parser, lone sign, exponent marker or exponent sign just consumed)
record invalid_argument; every other state ends the number cleanly.  In all
cases the coroutine terminates (`yield break`). -/
def finalStep (np : NumberParser) : NumberParser :=
  match np.st with
  | .start => { np with st := .complete, err := true }
  | .afterPlus => { np with st := .complete, err := true }
  | .afterMinus => { np with st := .complete, err := true }
  | .leadingZero => { np with st := .complete }
  | .intDigits => { np with st := .complete }
  | .fracStart => { np with st := .complete }
  | .fracDigits => { np with st := .complete }
  | .expStart => { np with st := .complete, err := true }
  | .expSignMinus => { np with st := .complete, err := true }
  | .expSignPlus => { np with st := .complete, err := true }
  | .expDigits => { np with st := .complete }
  | .complete => np

/-- Lines 284-289 of `operator()`: when called with an empty range, both
builders are finalised after the coroutine body exits. -/
def finaliseBuilders (np : NumberParser) : NumberParser :=
  { np with mantissa := mantissa_finalise np.mantissa,
            exponent := exponent_finalise np.exponent }

/-- `number_parser::operator()(begin, end)`, with the chunk as a list and
the returned iterator as the count of consumed characters.  An already
terminated coroutine bails out at once (running the builder finalisation
when the range is empty); an empty range on a live coroutine resumes into
the `finalising()` branch and then finalises the builders; otherwise the
characters are consumed by `runChunk`. -/
def feed (np : NumberParser) (chunk : List Char) : NumberParser × Nat :=
  if np.st = .complete then
    (if chunk = [] then finaliseBuilders np else np, 0)
  else if chunk = [] then (finaliseBuilders (finalStep np), 0)
  else runChunk np chunk

/-- `number_parser::finalise`: feed an empty range unless an error is
already recorded. -/
def finalise (np : NumberParser) : NumberParser :=
  if np.err = true then np else (feed np []).1

/-- `struct result`: the error slot together with the `number` (the pair of
builder buffers) captured from a parser. -/
structure ParseResult where
  err : Bool
  mantissa : List Char
  exponent : List Char
deriving DecidableEq

/-- Build a `result` from a `number_parser` (constructor at line 317). -/
def resultOf (np : NumberParser) : ParseResult := ⟨np.err, np.mantissa, np.exponent⟩

/-- `if (!np.is_complete()) np.finalise();` as used in `grind` on both the
baseline parser and each split parser. -/
def finishIfIncomplete (np : NumberParser) : NumberParser :=
  if np.st = .complete then np else finalise np

/-- The baseline computed by `grind`: feed the whole input in one call,
finalise if not complete, and keep the consumed count returned by the
first call. -/
def parseWhole (s : List Char) : NumberParser × Nat :=
  (finishIfIncomplete (feed initNP s).1, (feed initNP s).2)

/-- One split iteration of `grind`'s loop: a fresh parser is fed the prefix
`[0,i)`; if it is neither complete nor failed, the rest of the input from
the returned position is fed; finalise if still incomplete; the consumed
count is the distance from the input's begin to the last returned
position. -/
def parseSplit (s : List Char) (i : Nat) : NumberParser × Nat :=
  if ¬(feed initNP (s.take i)).1.st = .complete ∧ (feed initNP (s.take i)).1.err = false then
    (finishIfIncomplete
       (feed (feed initNP (s.take i)).1 (s.drop (feed initNP (s.take i)).2)).1,
     (feed initNP (s.take i)).2 +
       (feed (feed initNP (s.take i)).1 (s.drop (feed initNP (s.take i)).2)).2)
  else
    (finishIfIncomplete (feed initNP (s.take i)).1, (feed initNP (s.take i)).2)

/-! ### Helper lemmas about the step function and chunk runner -/

/-- A step that refuses its character has terminated the coroutine and has
touched neither buffer. -/
theorem stepChar_snd_false (np : NumberParser) (c : Char)
    (h : (stepChar np c).2 = false) :
    (stepChar np c).1.st = .complete ∧
    (stepChar np c).1.mantissa = np.mantissa ∧
    (stepChar np c).1.exponent = np.exponent := by
  obtain ⟨st, m, e, er⟩ := np
  cases st <;>
    simp only [stepChar, stepPostSign, stepFrac, stepExpDigits,
      mantissa_notify_digit, mantissa_notify_decimal, mantissa_notify_negative,
      exponent_notify_digit, exponent_notify_negative] at h ⊢ <;>
    first
      | (split_ifs at h ⊢ <;> simp_all)
      | simp_all

/-- A step that consumes its character leaves the coroutine live and does
not change the error slot. -/
theorem stepChar_snd_true (np : NumberParser) (c : Char)
    (h : (stepChar np c).2 = true) :
    ¬(stepChar np c).1.st = .complete ∧ (stepChar np c).1.err = np.err := by
  obtain ⟨st, m, e, er⟩ := np
  cases st <;>
    simp only [stepChar, stepPostSign, stepFrac, stepExpDigits] at h ⊢ <;>
    first
      | (split_ifs at h ⊢ <;> simp_all)
      | simp_all

/-- Stepping a terminated coroutine does nothing. -/
theorem stepChar_complete (np : NumberParser) (c : Char)
    (h : np.st = .complete) : stepChar np c = (np, false) := by
  obtain ⟨st, m, e, er⟩ := np
  cases st <;> simp_all [stepChar]

/-- `runChunk` on a terminated coroutine consumes nothing. -/
theorem runChunk_complete (b : List Char) (np : NumberParser)
    (h : np.st = .complete) : runChunk np b = (np, 0) := by
  cases b with
  | nil => rfl
  | cons c rest => simp [runChunk, stepChar_complete np c h]

/-- If a chunk run ends with the coroutine still live, the whole chunk was
consumed. -/
theorem runChunk_all (a : List Char) : ∀ np : NumberParser,
    ¬(runChunk np a).1.st = .complete → (runChunk np a).2 = a.length := by
  induction a with
  | nil => intro np _; rfl
  | cons c rest ih =>
      intro np h
      by_cases hb : (stepChar np c).2 = true
      · simp only [runChunk, hb, if_true] at h ⊢
        rw [ih _ h, List.length_cons]
      · simp only [Bool.not_eq_true] at hb
        simp only [runChunk, hb, Bool.false_eq_true, if_false] at h
        exact absurd (stepChar_snd_false np c hb).1 h

/-- A chunk run that leaves the coroutine live never sets the error slot. -/
theorem runChunk_err (a : List Char) : ∀ np : NumberParser,
    np.err = false → ¬(runChunk np a).1.st = .complete →
    (runChunk np a).1.err = false := by
  induction a with
  | nil => intro np he _; exact he
  | cons c rest ih =>
      intro np he h
      by_cases hb : (stepChar np c).2 = true
      · simp only [runChunk, hb, if_true] at h ⊢
        exact ih _ ((stepChar_snd_true np c hb).2.trans he) h
      · simp only [Bool.not_eq_true] at hb
        simp only [runChunk, hb, Bool.false_eq_true, if_false] at h
        exact absurd (stepChar_snd_false np c hb).1 h

/-- Concatenation law, suspended case: if running chunk `a` leaves the
coroutine live, running `a ++ b` is running `a` then `b`, consuming
`a.length` plus whatever the `b` run consumes. -/
theorem runChunk_append (a : List Char) : ∀ (np : NumberParser) (b : List Char),
    ¬(runChunk np a).1.st = .complete →
    runChunk np (a ++ b) =
      ((runChunk (runChunk np a).1 b).1,
        a.length + (runChunk (runChunk np a).1 b).2) := by
  induction a with
  | nil => intro np b _; simp [runChunk]
  | cons c rest ih =>
      intro np b h
      by_cases hb : (stepChar np c).2 = true
      · simp only [runChunk, hb, if_true] at h
        simp only [List.cons_append, runChunk, hb, if_true, List.append_eq]
        rw [ih _ b h]
        simp [Nat.add_comm, Nat.add_assoc, Nat.add_left_comm]
      · simp only [Bool.not_eq_true] at hb
        simp only [runChunk, hb, Bool.false_eq_true, if_false] at h
        exact absurd (stepChar_snd_false np c hb).1 h

/-- Concatenation law, terminated case: if running chunk `a` terminates the
coroutine, the trailing `b` characters change nothing. -/
theorem runChunk_append_complete (a : List Char) :
    ∀ (np : NumberParser) (b : List Char),
    (runChunk np a).1.st = .complete →
    runChunk np (a ++ b) = runChunk np a := by
  induction a with
  | nil =>
      intro np b h
      simp only [runChunk] at h
      simp only [List.nil_append, runChunk]
      exact runChunk_complete b np h
  | cons c rest ih =>
      intro np b h
      by_cases hb : (stepChar np c).2 = true
      · simp only [runChunk, hb, if_true] at h ⊢
        simp only [List.cons_append, runChunk, hb, if_true, List.append_eq]
        rw [ih _ b h]
      · simp only [Bool.not_eq_true] at hb
        simp [List.cons_append, runChunk, hb]

/-- The split parse of `grind`'s loop body agrees with the whole-input
baseline parse, as a full equality of final parser and consumed count. -/
theorem parseSplit_eq (s : List Char) (i : Nat) (h1 : 1 ≤ i) (h2 : i < s.length) :
    parseSplit s i = parseWhole s := by
  have hsne : ¬s = [] := by
    intro h
    rw [h] at h2
    simp at h2
  have hpre : ¬s.take i = [] := by
    rw [List.take_eq_nil_iff]
    push_neg
    exact ⟨by omega, hsne⟩
  have hsuf : ¬s.drop i = [] := by
    rw [List.drop_eq_nil_iff]
    omega
  have hfeed_pre : feed initNP (s.take i) = runChunk initNP (s.take i) := by
    simp [feed, initNP, hpre]
  have hfeed_all : feed initNP s = runChunk initNP s := by
    simp [feed, initNP, hsne]
  have hsplit : s.take i ++ s.drop i = s := List.take_append_drop i s
  by_cases hc : (runChunk initNP (s.take i)).1.st = PState.complete
  · have hall : runChunk initNP s = runChunk initNP (s.take i) := by
      conv_lhs => rw [← hsplit]
      exact runChunk_append_complete _ _ _ hc
    unfold parseSplit parseWhole
    rw [hfeed_pre, hfeed_all, hall]
    simp [hc]
  · have herr : (runChunk initNP (s.take i)).1.err = false :=
      runChunk_err _ _ rfl hc
    have hlen : (runChunk initNP (s.take i)).2 = (s.take i).length :=
      runChunk_all _ _ hc
    have hleni : (s.take i).length = i := by
      rw [List.length_take]
      omega
    have happ : runChunk initNP s =
        ((runChunk (runChunk initNP (s.take i)).1 (s.drop i)).1,
          i + (runChunk (runChunk initNP (s.take i)).1 (s.drop i)).2) := by
      conv_lhs => rw [← hsplit]
      rw [runChunk_append _ _ _ hc, hleni]
    have hfeed_suf : feed (runChunk initNP (s.take i)).1 (s.drop i)
        = runChunk (runChunk initNP (s.take i)).1 (s.drop i) := by
      simp [feed, hc, hsuf]
    unfold parseSplit parseWhole
    rw [hfeed_pre, hfeed_all, hlen, hleni, hfeed_suf, happ]
    simp [hc, herr]

/-! ### Claim theorems -/

/-- C1: Split invariance — for every input string `s` and split index
`1 ≤ i < length s`, feeding the prefix to a fresh parser, then (if neither
complete nor failed) the suffix, then finalizing if still incomplete,
yields the same error, the same Number (mantissa and exponent text) and the
same total consumed length as feeding all of `s` in one call followed by
the same finalize step. -/
theorem C1_split_invariance (s : List Char) (i : Nat)
    (h1 : 1 ≤ i) (h2 : i < s.length) :
    resultOf (parseSplit s i).1 = resultOf (parseWhole s).1 ∧
    (parseSplit s i).2 = (parseWhole s).2 := by
  rw [parseSplit_eq s i h1 h2]
  exact ⟨rfl, rfl⟩

/-- C1 witness: the split invariance instantiated on "100.0" at split
index 2. -/
theorem C1_split_invariance_witness :
    1 ≤ 2 ∧ 2 < ("100.0".toList).length ∧
      (resultOf (parseSplit ("100.0".toList) 2).1 =
          resultOf (parseWhole ("100.0".toList)).1 ∧
        (parseSplit ("100.0".toList) 2).2 = (parseWhole ("100.0".toList)).2) :=
  ⟨by decide, by decide, C1_split_invariance ("100.0".toList) 2 (by decide) (by decide)⟩

/-- C2 counterexample: feeding "0.5" then finalizing succeeds (no error),
but the final mantissa text is ".5" — it does not begin with '0', because
the leading '0' is consumed without any accumulator append. -/
theorem C2_counterexample :
    (parseWhole ("0.5".toList)).1.err = false ∧
    (parseWhole ("0.5".toList)).1.mantissa = ".5".toList ∧
    ¬(parseWhole ("0.5".toList)).1.mantissa.head? = some '0' := by decide

/-- C2 amended: when the first digit is '0' it is consumed but appended to
neither accumulator (the parser merely moves to the leading-zero state), so
"0.5" fed then finalized yields mantissa ".5"; a lone "0" still finalizes
to mantissa "0", but only through the mantissa-builder empty-buffer
default. -/
theorem C2_amended (np : NumberParser) (h : np.st = PState.start) :
    stepChar np '0' = ({ np with st := PState.leadingZero }, true) ∧
    resultOf (parseWhole ("0.5".toList)).1 = ⟨false, ".5".toList, "e0".toList⟩ ∧
    resultOf (parseWhole ("0".toList)).1 = ⟨false, "0".toList, "e0".toList⟩ := by
  obtain ⟨st, m, e, er⟩ := np
  simp only at h
  subst h
  exact ⟨rfl, by decide, by decide⟩

/-- C2 amended witness: the amended claim instantiated on the fresh
parser. -/
theorem C2_amended_witness :
    initNP.st = PState.start ∧
      (stepChar initNP '0' = ({ initNP with st := PState.leadingZero }, true) ∧
        resultOf (parseWhole ("0.5".toList)).1 = ⟨false, ".5".toList, "e0".toList⟩ ∧
        resultOf (parseWhole ("0".toList)).1 = ⟨false, "0".toList, "e0".toList⟩) :=
  ⟨rfl, C2_amended initNP rfl⟩

/-- C3: Leading-zero rule — "0" then finalize yields no error and Number
("0","e0"); "0." then finalize yields no error; feeding "01" records
InvalidArgument; and after a lone consumed '0' any character other than
'.' records InvalidArgument. -/
theorem C3_leading_zero :
    resultOf (parseWhole ("0".toList)).1 = ⟨false, "0".toList, "e0".toList⟩ ∧
    (parseWhole ("0.".toList)).1.err = false ∧
    (feed initNP ("01".toList)).1.err = true ∧
    (∀ c : Char, ¬c = '.' → (feed (feed initNP ("0".toList)).1 [c]).1.err = true) := by
  refine ⟨by decide, by decide, by decide, ?_⟩
  intro c hc
  have h0 : (feed initNP ("0".toList)).1 =
      ⟨PState.leadingZero, [], [], false⟩ := by decide
  rw [h0]
  simp [feed, runChunk, stepChar, hc]

/-- C3 witness: the universally quantified part instantiated at the digit
'1' (the "01" shape) and at 'e'. -/
theorem C3_leading_zero_witness :
    (¬('1' : Char) = '.') ∧ (¬('e' : Char) = '.') ∧
      (feed (feed initNP ("0".toList)).1 ['1']).1.err = true ∧
      (feed (feed initNP ("0".toList)).1 ['e']).1.err = true :=
  ⟨by decide, by decide, C3_leading_zero.2.2.2 '1' (by decide),
    C3_leading_zero.2.2.2 'e' (by decide)⟩

/-- C4: Sign handling — "+5" yields mantissa "5" and "-5" yields mantissa
"-5"; from the start state a '+' is consumed with no accumulator append,
and a '-' is consumed appending exactly one '-' to the mantissa. -/
theorem C4_sign_handling :
    resultOf (parseWhole ("+5".toList)).1 = ⟨false, "5".toList, "e0".toList⟩ ∧
    resultOf (parseWhole ("-5".toList)).1 = ⟨false, "-5".toList, "e0".toList⟩ ∧
    (∀ np : NumberParser, np.st = PState.start →
      stepChar np '+' = ({ np with st := PState.afterPlus }, true)) ∧
    (∀ np : NumberParser, np.st = PState.start →
      stepChar np '-' =
        ({ np with st := PState.afterMinus, mantissa := np.mantissa ++ ['-'] },
          true)) := by
  refine ⟨by decide, by decide, ?_, ?_⟩ <;>
    · intro np h
      obtain ⟨st, m, e, er⟩ := np
      simp only at h
      subst h
      rfl

/-- C4 witness: the quantified sign facts instantiated on the fresh
parser. -/
theorem C4_sign_handling_witness :
    initNP.st = PState.start ∧
      stepChar initNP '+' = ({ initNP with st := PState.afterPlus }, true) ∧
      stepChar initNP '-' =
        ({ initNP with st := PState.afterMinus, mantissa := initNP.mantissa ++ ['-'] },
          true) :=
  ⟨rfl, C4_sign_handling.2.2.1 initNP rfl, C4_sign_handling.2.2.2 initNP rfl⟩

/-- C5: End-of-stream incompleteness and empty input — "-", "1e" and "1e-"
each fed alone then finalized record InvalidArgument, and a zero-length
first feed records InvalidArgument immediately. -/
theorem C5_incompleteness :
    (parseWhole ("-".toList)).1.err = true ∧
    (parseWhole ("1e".toList)).1.err = true ∧
    (parseWhole ("1e-".toList)).1.err = true ∧
    (feed initNP ([] : List Char)).1.err = true := by decide

/-- C6: Termination on trailing garbage — feeding "100.0x" consumes
exactly 5 characters, reaching Complete with no error, and finalize then
yields Number ("100.0","e0"); in general a step that ends the number
leaves its character unconsumed, terminal state Complete, and both buffers
untouched. -/
theorem C6_trailing_garbage :
    (feed initNP ("100.0x".toList)).2 = 5 ∧
    (feed initNP ("100.0x".toList)).1.st = PState.complete ∧
    (feed initNP ("100.0x".toList)).1.err = false ∧
    resultOf (finalise (feed initNP ("100.0x".toList)).1) =
      ⟨false, "100.0".toList, "e0".toList⟩ ∧
    (∀ (np : NumberParser) (c : Char), (stepChar np c).2 = false →
      (stepChar np c).1.st = PState.complete ∧
      (stepChar np c).1.mantissa = np.mantissa ∧
      (stepChar np c).1.exponent = np.exponent) :=
  ⟨by decide, by decide, by decide, by decide,
    fun np c h => stepChar_snd_false np c h⟩

/-- C6 witness: the quantified part instantiated at the fraction-digit
state of "100.0" meeting the character 'x'. -/
theorem C6_trailing_garbage_witness :
    (stepChar ⟨PState.fracDigits, "100.0".toList, [], false⟩ 'x').2 = false ∧
      ((stepChar ⟨PState.fracDigits, "100.0".toList, [], false⟩ 'x').1.st =
          PState.complete ∧
        (stepChar ⟨PState.fracDigits, "100.0".toList, [], false⟩ 'x').1.mantissa =
          (⟨PState.fracDigits, "100.0".toList, [], false⟩ : NumberParser).mantissa ∧
        (stepChar ⟨PState.fracDigits, "100.0".toList, [], false⟩ 'x').1.exponent =
          (⟨PState.fracDigits, "100.0".toList, [], false⟩ : NumberParser).exponent) :=
  ⟨by decide, C6_trailing_garbage.2.2.2.2 _ 'x' (by decide)⟩

/-- C7: Exponent finalize invariant and default — finalizing any parser
with no error recorded gives an exponent text that starts with 'e' and has
at least one further character; if the exponent buffer was empty (no
exponent clause) it becomes exactly "e0"; and the marker read from the
input is never appended, as "1e5" finalizes to mantissa "1" and exponent
"e5". -/
theorem C7_exponent_finalize (np : NumberParser) (h : np.err = false) :
    (finalise np).exponent.head? = some 'e' ∧
    2 ≤ (finalise np).exponent.length ∧
    (np.exponent = [] → (finalise np).exponent = "e0".toList) ∧
    resultOf (parseWhole ("1e5".toList)).1 = ⟨false, "1".toList, "e5".toList⟩ := by
  have hfs : (finalStep np).exponent = np.exponent := by
    obtain ⟨st, m, e, er⟩ := np
    cases st <;> rfl
  have hexp : (finalise np).exponent = exponent_finalise np.exponent := by
    by_cases hst : np.st = PState.complete
    · simp [finalise, h, feed, hst, finaliseBuilders]
    · simp [finalise, h, feed, hst, finaliseBuilders, hfs]
  refine ⟨?_, ?_, ?_, by decide⟩
  · rw [hexp]
    rfl
  · rw [hexp]
    simp only [exponent_finalise, List.length_cons]
    split_ifs with hb
    · simp
    · have := List.length_pos.mpr hb
      omega
  · intro hb
    rw [hexp, hb]
    rfl

/-- C7 witness: the invariant instantiated on the suspended parser reached
by feeding "1", whose exponent buffer is empty. -/
theorem C7_exponent_finalize_witness :
    (⟨PState.intDigits, ['1'], [], false⟩ : NumberParser).err = false ∧
      ((finalise ⟨PState.intDigits, ['1'], [], false⟩).exponent.head? = some 'e' ∧
        2 ≤ (finalise ⟨PState.intDigits, ['1'], [], false⟩).exponent.length ∧
        ((⟨PState.intDigits, ['1'], [], false⟩ : NumberParser).exponent = [] →
          (finalise ⟨PState.intDigits, ['1'], [], false⟩).exponent = "e0".toList) ∧
        resultOf (parseWhole ("1e5".toList)).1 = ⟨false, "1".toList, "e5".toList⟩) :=
  ⟨rfl, C7_exponent_finalize ⟨PState.intDigits, ['1'], [], false⟩ rfl⟩

/-- C8 counterexample: after feeding "1" and finalizing, the parser is
complete without error and its exponent text is "e0"; one further finalize
call changes the exponent text to "ee0" — finalize is not a no-op on this
already-completed, already-finalized parser. -/
theorem C8_counterexample :
    (finalise (feed initNP ("1".toList)).1).err = false ∧
    (finalise (feed initNP ("1".toList)).1).st = PState.complete ∧
    (finalise (feed initNP ("1".toList)).1).exponent = "e0".toList ∧
    (finalise (finalise (feed initNP ("1".toList)).1)).exponent = "ee0".toList := by
  decide

/-- C8 amended: a further finalize on an already-failed parser is a no-op;
on an already-completed parser with error None and non-empty buffers it
leaves the error slot and the mantissa text unchanged but prepends one more
'e' to the exponent text, so finalizing twice after input "1" yields
exponent "ee0" instead of "e0". -/
theorem C8_amended (np : NumberParser) :
    (np.err = true → finalise np = np) ∧
    (np.err = false → np.st = PState.complete →
      ¬np.mantissa = [] → ¬np.exponent = [] →
      ((finalise np).err = false ∧
        (finalise np).mantissa = np.mantissa ∧
        (finalise np).exponent = 'e' :: np.exponent)) := by
  constructor
  · intro h
    simp [finalise, h]
  · intro he hst hm hexp
    simp [finalise, he, feed, hst, finaliseBuilders, mantissa_finalise,
      exponent_finalise, hm, hexp]

/-- C8 amended witness: the no-op half on a failed parser, and the
exponent-growth half on the completed, finalized parser produced by the
input "1". -/
theorem C8_amended_witness :
    finalise ⟨PState.complete, [], [], true⟩ = ⟨PState.complete, [], [], true⟩ ∧
      ((finalise ⟨PState.complete, ['1'], ['e', '0'], false⟩).err = false ∧
        (finalise ⟨PState.complete, ['1'], ['e', '0'], false⟩).mantissa = ['1'] ∧
        (finalise ⟨PState.complete, ['1'], ['e', '0'], false⟩).exponent =
          'e' :: ['e', '0']) :=
  ⟨(C8_amended ⟨PState.complete, [], [], true⟩).1 rfl,
    (C8_amended ⟨PState.complete, ['1'], ['e', '0'], false⟩).2 rfl rfl
      (by decide) (by decide)⟩

/-- C9: a non-empty first chunk starting with a byte that is none of '+',
'-', a digit, '.', 'e', 'E' completes a fresh parser immediately with no
error and consumed position 0, and a subsequent finalize yields Number
("0","e0"); concretely so for the chunk "x". -/
theorem C9_no_digit_required :
    feed initNP ("x".toList) = ({ initNP with st := PState.complete }, 0) ∧
    resultOf (finalise (feed initNP ("x".toList)).1) =
      ⟨false, "0".toList, "e0".toList⟩ ∧
    (∀ (c : Char) (rest : List Char),
      ¬c = '+' → ¬c = '-' → is_digit c = false → ¬c = '.' →
      ¬c = 'e' → ¬c = 'E' →
      feed initNP (c :: rest) = ({ initNP with st := PState.complete }, 0)) := by
  refine ⟨by decide, by decide, ?_⟩
  intro c rest h1 h2 h3 h4 h5 h6
  have h0 : ¬c = '0' := by
    intro h
    subst h
    simp [is_digit] at h3
  simp [feed, initNP, runChunk, stepChar, stepPostSign, h1, h2, h3, h4, h5, h6, h0]

/-- C9 witness: the quantified part instantiated at the chunk "x". -/
theorem C9_no_digit_required_witness :
    is_digit 'x' = false ∧
      feed initNP ('x' :: []) = ({ initNP with st := PState.complete }, 0) :=
  ⟨by decide,
    C9_no_digit_required.2.2 'x' [] (by decide) (by decide) (by decide)
      (by decide) (by decide) (by decide)⟩

/-- C10: an input beginning directly with a decimal point is accepted —
".5" fed then finalized records no error and yields mantissa ".5" with
exponent "e0", and the same point-first path after a consumed sign gives
"+.5" the same mantissa ".5". -/
theorem C10_point_first :
    resultOf (parseWhole (".5".toList)).1 = ⟨false, ".5".toList, "e0".toList⟩ ∧
    resultOf (parseWhole ("+.5".toList)).1 = ⟨false, ".5".toList, "e0".toList⟩ := by
  decide

end JsonNum
